import Mathlib

/-!
Shallow embedding of the pyLox lexical scanner (src/src/scan.py and
src/src/loxerr.py) and proofs about it.

Modelling conventions:
* A Python `str` buffer is a `List Char`; `content[i]` is `pyGet content i`
  (with `none` for an out-of-range index, which in Python raises IndexError).
* Character classification (`isspace`, `isalpha`, `isnumeric`, `isalnum`)
  is modelled on the ASCII range, which is the range the scanner's own
  tables and the repository's tests exercise.
* A matcher that can raise a Python exception returns `Option MatchResult`;
  `none` means the call raises instead of returning.
* Python `float(...)` values are modelled exactly: a decimal lexeme parses
  to a mantissa and a power-of-ten denominator exponent, so the value is
  `num / 10 ^ den` (see `pyFloatVal`). The claims under study only compare
  literals at the granularity where this model and IEEE doubles agree on
  the source text.
* Bounded `while` loops are translated to structurally recursive functions
  on a fuel argument; every call site passes `content.length + 1` fuel,
  which exceeds the number of iterations of the corresponding Python loop
  (each iteration advances the index by at least one).
-/

namespace PyLox

/-- Python `content[i]` as a partial read: `none` models IndexError. -/
def pyGet (content : List Char) (i : Nat) : Option Char := content.get? i

/-- Python slice `content[a:b]` for `0 ≤ a ≤ b` (clamped at the ends). -/
def pySlice (content : List Char) (a b : Nat) : List Char :=
  (content.drop a).take (b - a)

/-- Python `str.isspace` restricted to the ASCII whitespace characters. -/
def pyIsSpace (c : Char) : Bool :=
  c = ' ' || c = '\t' || c = '\n' || c = '\r' || c = '\x0b' || c = '\x0c'

/-- Python `str.isnumeric` restricted to the ASCII digits. -/
def pyIsDigit (c : Char) : Bool := c.isDigit

/-- Python `str.isalpha` restricted to the ASCII letters. -/
def pyIsAlpha (c : Char) : Bool := c.isAlpha

/-- Python `str.isalnum` restricted to ASCII letters and digits. -/
def pyIsAlnum (c : Char) : Bool := pyIsAlpha c || pyIsDigit c

/-- Convenience: the character list of a string literal. -/
def toL (s : String) : List Char := s.data

/-- The closed token-kind enumeration from scan.py (`TokenKind`): one case
per symbol kind, keyword kind, and literal kind. -/
inductive TokenKind where
  | LPAREN | RPAREN | LCURLY | RCURLY | LANGLE | RANGLE
  | DOTS | DOT | COMMA | COLON
  | PLUS | INC | PLUSEQ | MINUS | DEC | MINEQ | MUL | DIV | COMMENT
  | EQ | DEQ | LT | LTEQ | GT | GTEQ | NEQ | BANG
  | AND | OR | NOT | XOR | IF | ELSE | WHILE | FOR | DEF | VAR | NIL
  | TRUE | FALSE
  | NUMBER | STRING | IDENTIFIER | EXPONENT
deriving DecidableEq, Repr

/-- The `SYMBOLS` dict of scan.py, as a lookup from lexeme to kind
(`getattr(TokenKind, SYMBOLS.get(lexeme, ""), None)`). -/
def symLookup : List Char → Option TokenKind
  | ['('] => some .LPAREN
  | [')'] => some .RPAREN
  | ['\x7b'] => some .LCURLY
  | ['\x7d'] => some .RCURLY
  | ['['] => some .LANGLE
  | [']'] => some .RANGLE
  | [':'] => some .DOTS
  | ['.'] => some .DOT
  | [','] => some .COMMA
  | [';'] => some .COLON
  | ['+'] => some .PLUS
  | ['+', '+'] => some .INC
  | ['+', '='] => some .PLUSEQ
  | ['-'] => some .MINUS
  | ['-', '-'] => some .DEC
  | ['-', '='] => some .MINEQ
  | ['*'] => some .MUL
  | ['/'] => some .DIV
  | ['/', '/'] => some .COMMENT
  | ['='] => some .EQ
  | ['=', '='] => some .DEQ
  | ['<'] => some .LT
  | ['<', '='] => some .LTEQ
  | ['>'] => some .GT
  | ['>', '='] => some .GTEQ
  | ['!', '='] => some .NEQ
  | ['!'] => some .BANG
  | _ => none

/-- The `KEYWORDS` dict of scan.py, as a lookup from lexeme to kind. -/
def kwLookup : List Char → Option TokenKind
  | ['a', 'n', 'd'] => some .AND
  | ['o', 'r'] => some .OR
  | ['n', 'o', 't'] => some .NOT
  | ['x', 'o', 'r'] => some .XOR
  | ['i', 'f'] => some .IF
  | ['e', 'l', 's', 'e'] => some .ELSE
  | ['w', 'h', 'i', 'l', 'e'] => some .WHILE
  | ['f', 'o', 'r'] => some .FOR
  | ['d', 'e', 'f'] => some .DEF
  | ['v', 'a', 'r'] => some .VAR
  | ['n', 'i', 'l'] => some .NIL
  | ['t', 'r', 'u', 'e'] => some .TRUE
  | ['f', 'a', 'l', 's', 'e'] => some .FALSE
  | _ => none

/-- The `PREFIXES` tuple of scan.py: first characters shared by more than
one symbol or keyword. -/
def PREFIXES : List Char := ['+', '-', '=', '<', '>', '!', 'n', '/', 'f']

/-- The `ESCAPE_SEQUENCES` dict of scan.py (`ESCAPE_SEQUENCES.get(c, None)`).
All values are non-empty one-character strings, so Python's truthiness test
`if seq:` coincides with `is not None`. -/
def escLookup : Char → Option Char
  | 'a' => some '\x07'
  | 'b' => some '\x08'
  | 'f' => some '\x0c'
  | 'n' => some '\n'
  | 'r' => some '\x0d'
  | 't' => some '\t'
  | 'v' => some '\x0b'
  | '\\' => some '\\'
  | '\x27' => some '\x27'
  | '\x22' => some '\x22'
  | _ => none

/-- The `ScanError` namedtuple of loxerr.py. `filename` is `None` or a
string in the source, modelled by `Option String`. -/
structure ScanError where
  filename : Option String
  content : List Char
  pos : Nat
  msg : String
deriving DecidableEq, Repr

/-- The `ScanErrorMessages` catalog of loxerr.py, keyed by the numeric
error code. Keys outside the catalog never occur in the scanner. -/
def ScanErrorMessages : Nat → String
  | 10 => "Unknown symbol."
  | 11 => "Error parsing string: Opening quote missing."
  | 12 => "Error parsing string: EOF reached while parsing escape sequence."
  | 13 => "Error parsing string: Unknown escape sequence."
  | 14 => "Error parsing string: Missing closing quote."
  | 15 => "Invalid start character for identifier."
  | 16 => "Error in parsing number: Expected digit or \x27.\x27."
  | 17 => "Error in parsing number: No digit."
  | 30 => "Error in parsing exponent: Invalid start character."
  | 31 => "Error in parsing exponent: No value."
  | 40 => "Error: EOF reached."
  | _ => ""

/-- A decoded literal value attached to a token: Python `int`, `float`
(modelled exactly as `num / 10 ^ den`, see `pyFloatVal`) or `str`. -/
inductive Lit where
  | int (n : Int)
  | float (num den : Nat)
  | str (s : List Char)
deriving DecidableEq, Repr

/-- The rational value denoted by a `Lit.float num den` literal. -/
def pyFloatVal (num den : Nat) : Rat := (num : Rat) / (10 : Rat) ^ den

/-- The `Token` class of scan.py. The Python field `end` is named `stop`
here (`end` is a Lean keyword); `literal=None` is `none`. -/
structure Token where
  kind : TokenKind
  lexeme : List Char
  start : Nat
  stop : Nat
  literal : Option Lit
deriving DecidableEq, Repr

/-- The dynamically typed `error` field of a `MatchResult`: `None`, a bare
catalog message string (match_symbol), a single `ScanError`, or a list of
accumulated `ScanError`s (match_string). -/
inductive ErrField where
  | none
  | str (s : String)
  | err (e : ScanError)
  | list (es : List ScanError)
deriving DecidableEq, Repr

/-- The `MatchResult` class of scan.py. -/
structure MatchResult where
  success : Bool
  token : Option Token
  span : Nat
  error : ErrField
deriving DecidableEq, Repr

/-- Python `int(''.join(digits))` on a non-empty run of ASCII digits
(leading zeros allowed). -/
def digitsToNat (l : List Char) : Nat :=
  l.foldl (fun a c => a * 10 + (c.toNat - 48)) 0

/-- Python `float(lexeme)` on the lexemes this scanner builds
(`digits? ('.' digits?)? ([eE] [+-]? digits)?`): the mantissa and the
power-of-ten denominator exponent of the exact value `num / 10 ^ den`. -/
def parsePyFloat (s : List Char) : Nat × Nat :=
  let mant := s.takeWhile (fun c => !(c = 'e' || c = 'E'))
  let rest := (s.dropWhile (fun c => !(c = 'e' || c = 'E'))).drop 1
  let eneg : Bool := rest.head? = some '-'
  let edigits := if rest.head? = some '-' || rest.head? = some '+' then rest.drop 1 else rest
  let ipart := mant.takeWhile (fun c => !(c = '.'))
  let fpart := (mant.dropWhile (fun c => !(c = '.'))).drop 1
  let m := digitsToNat (ipart ++ fpart)
  let e := digitsToNat edigits
  if eneg then (m, fpart.length + e) else (m * 10 ^ e, fpart.length)

/-- The two-character attempt of `match_symbol` (scan.py lines 358-363):
tried only when more than one character remains and the first character is
an ambiguous prefix; `none` means fall through to the one-character lookup. -/
def match_symbol_two (content : List Char) (start : Nat) : Option MatchResult :=
  if content.length - start > 1 then
    match pyGet content start with
    | some c0 =>
      if c0 ∈ PREFIXES then
        match symLookup (pySlice content start (start + 2)) with
        | some kind =>
          some ⟨true, some ⟨kind, pySlice content start (start + 2), start, start + 2, none⟩,
                2, .none⟩
        | none => none
      else none
    | none => none
  else none

/-- `match_symbol` (scan.py lines 354-371): prefer a two-character symbol
when the first character is an ambiguous prefix, fall back to the
one-character lookup, and fail with the bare catalog string otherwise. -/
def match_symbol (content : List Char) (start : Nat) : MatchResult :=
  match match_symbol_two content start with
  | some r => r
  | none =>
    match symLookup (pySlice content start (start + 1)) with
    | some kind => ⟨true, some ⟨kind, pySlice content start (start + 1), start, start + 1, none⟩,
                    1, .none⟩
    | none => ⟨false, none, 0, .str (ScanErrorMessages 10)⟩

/-- `match_comment` (scan.py lines 374-386). Note the source condition is
`len(content) - start > 2`: strictly more than two characters must remain
for the comment matcher to even look at the two-character marker. -/
def match_comment (content : List Char) (start : Nat) : MatchResult :=
  if content.length - start > 2 then
    if pySlice content start (start + 2) = ['/', '/'] then
      let tw := (content.drop (start + 2)).takeWhile (fun c => !(c = '\n'))
      let j := start + 2 + tw.length
      let j2 := if pyGet content j = some '\n' then j + 1 else j
      ⟨true, none, j2 - start, .none⟩
    else ⟨false, none, 0, .none⟩
  else ⟨false, none, 0, .none⟩

/-- The `while i < len(content)` loop of `match_string` (scan.py lines
397-421), with the loop state `(i, chars, errors)` and result flag `end`
(the fourth component). Fuel-structural; call sites pass ample fuel. -/
def strLoopF (content : List Char) :
    Nat → Nat → List Char → List ScanError → Nat × List Char × List ScanError × Bool
  | 0, i, chars, errors => (i, chars, errors, false)
  | fuel + 1, i, chars, errors =>
    match pyGet content i with
    | none => (i, chars, errors, false)
    | some c =>
      if c = '\\' then
        match pyGet content (i + 1) with
        | none => (i, chars, errors ++ [⟨none, content, i, ScanErrorMessages 12⟩], false)
        | some c2 =>
          match escLookup c2 with
          | some seq => strLoopF content fuel (i + 2) (chars ++ [seq]) errors
          | none =>
            strLoopF content fuel (i + 2) chars
              (errors ++ [⟨none, content, i, ScanErrorMessages 13⟩])
      else if c = '\x22' then (i + 1, chars, errors, true)
      else strLoopF content fuel (i + 1) (chars ++ [c]) errors

/-- `match_string` (scan.py lines 389-432). `none` models the IndexError
raised by `content[start]` when `start` is out of range. The token is
built unconditionally, even when `success` is false. -/
def match_string (content : List Char) (start : Nat) : Option MatchResult :=
  match pyGet content start with
  | none => none
  | some c0 =>
    if c0 = '\x22' then
      match strLoopF content (content.length + 1) (start + 1) [] [] with
      | (i, chars, errs0, ended) =>
        let errors := if ended then errs0 else errs0 ++ [⟨none, content, i, ScanErrorMessages 14⟩]
        let literal : List Char := if errors.isEmpty then chars else []
        let lexeme := '\x22' :: (chars ++ (if ended then ['\x22'] else []))
        some ⟨errors.isEmpty,
              some ⟨.STRING, lexeme, start, i, some (.str literal)⟩,
              i - start,
              if errors.isEmpty then .none else .list errors⟩
    else some ⟨false, none, 0, .err ⟨none, content, start, ScanErrorMessages 11⟩⟩

/-- `match_identifier` (scan.py lines 435-451): a maximal run of
alphanumeric or underscore characters, reclassified through `KEYWORDS`. -/
def match_identifier (content : List Char) (start : Nat) : MatchResult :=
  let run := (content.drop start).takeWhile (fun c => pyIsAlnum c || c = '_')
  let i := start + run.length
  if run = [] then
    ⟨false, none, 0, .err ⟨none, content, start, ScanErrorMessages 15⟩⟩
  else
    let kind := (kwLookup run).getD .IDENTIFIER
    ⟨true, some ⟨kind, run, start, i, none⟩, i - start, .none⟩

/-- The shared tail of `match_exponent` (scan.py lines 509-519) after the
sign has been read: collect the digit run from `i2`, fail with "No value"
when it is empty, and otherwise build the EXPONENT token whose lexeme is
`content[start:i3]`. -/
def match_exponent_tail (content : List Char) (start : Nat) (sign : Int) (i2 : Nat) :
    MatchResult :=
  let value := (content.drop i2).takeWhile pyIsDigit
  let i3 := i2 + value.length
  if value = [] then
    ⟨false, none, 0, .err ⟨none, content, i3, ScanErrorMessages 31⟩⟩
  else
    ⟨true,
     some ⟨.EXPONENT, pySlice content start i3, start, i3,
           some (.int (sign * (digitsToNat value : Int)))⟩,
     i3 - start, .none⟩

/-- `match_exponent` (scan.py lines 492-519). After the leading `e`/`E` the
source reads `content[i]` with no bounds check; `none` models the
IndexError raised when the `e`/`E` is the last character of the buffer.
The sign dispatch (lines 502-508) selects the `(sign, i2)` pair passed to
`match_exponent_tail`. -/
def match_exponent (content : List Char) (start : Nat) : Option MatchResult :=
  if content.length ≤ start then
    some ⟨false, none, 0, .err ⟨none, content, start, ScanErrorMessages 40⟩⟩
  else
    match pyGet content start with
    | none => none
    | some c0 =>
      if c0.toLower = 'e' then
        match pyGet content (start + 1) with
        | none => none
        | some c1 =>
          if c1 = '-' then some (match_exponent_tail content start (-1) (start + 2))
          else if c1 = '+' then some (match_exponent_tail content start 1 (start + 2))
          else some (match_exponent_tail content start 1 (start + 1))
      else some ⟨false, none, 0, .err ⟨none, content, start, ScanErrorMessages 30⟩⟩

/-- The digit-and-dot collection loop of `match_number` (scan.py lines
463-474), with loop state `(chars, has_dot, has_digit, i)`. -/
def numLoopF (content : List Char) :
    Nat → Nat → List Char → Bool → Bool → List Char × Bool × Bool × Nat
  | 0, i, chars, hasDot, hasDigit => (chars, hasDot, hasDigit, i)
  | fuel + 1, i, chars, hasDot, hasDigit =>
    match pyGet content i with
    | none => (chars, hasDot, hasDigit, i)
    | some c =>
      if pyIsDigit c then numLoopF content fuel (i + 1) (chars ++ [c]) hasDot true
      else if c = '.' && !hasDot then numLoopF content fuel (i + 1) (chars ++ [c]) true hasDigit
      else (chars, hasDot, hasDigit, i)

/-- `match_number` (scan.py lines 454-489). `none` models a propagated
exception: the unchecked `content[start]` read, or an exception raised by
the `match_exponent` sub-call. -/
def match_number (content : List Char) (start : Nat) : Option MatchResult :=
  match pyGet content start with
  | none => none
  | some c0 =>
    if !(pyIsDigit c0 || c0 = '.') then
      some ⟨false, none, 0, .err ⟨none, content, start, ScanErrorMessages 16⟩⟩
    else
      match numLoopF content (content.length + 1) start [] false false with
      | (chars, hasDot, hasDigit, i) =>
        if !hasDigit then
          some ⟨false, none, 0, .err ⟨none, content, i, ScanErrorMessages 17⟩⟩
        else
          let lit0 : Lit :=
            if hasDot then .float (parsePyFloat chars).1 (parsePyFloat chars).2
            else .int (digitsToNat chars)
          if i < content.length then
            match match_exponent content i with
            | none => none
            | some expm =>
              if expm.success then
                match expm.token with
                | none => none
                | some et =>
                  let lexeme2 := chars ++ et.lexeme
                  some ⟨true,
                        some ⟨.NUMBER, lexeme2, start, i + expm.span,
                              some (.float (parsePyFloat lexeme2).1 (parsePyFloat lexeme2).2)⟩,
                        i + expm.span - start, .none⟩
              else some ⟨true, some ⟨.NUMBER, chars, start, i, some lit0⟩, i - start, .none⟩
          else some ⟨true, some ⟨.NUMBER, chars, start, i, some lit0⟩, i - start, .none⟩

/-- One element of the driver's `self.errors` list. The list is
heterogeneous in Python: `append(m.error)` stores the bare message string
from `match_symbol`, while `extend(m.error)` unpacks the `ScanError` list
from `match_string`. `other` covers error shapes no matcher produces. -/
inductive PyErrItem where
  | str (s : String)
  | err (e : ScanError)
  | other (e : ErrField)
deriving DecidableEq, Repr

/-- Result of a full scan: normal return (`LoxScanner.tokens` and
`LoxScanner.errors`), a propagated Python exception, or the fuel-exhaustion
artifact of the model (unreachable with the fuel the entry point passes). -/
inductive ScanOutcome where
  | ok (tokens : List Token) (errors : List PyErrItem)
  | exc
  | fuelout
deriving DecidableEq, Repr

/-- The driver loop `LoxScanner.nexttok` (scan.py lines 269-336) combined
with `LoxScanner.scan` (lines 338-341), which appends every non-`None`
yielded token. `exc` models the `raise RuntimeError` arms and exceptions
propagated from matchers. -/
def scanLoopF (content : List Char) :
    Nat → Nat → List Token → List PyErrItem → ScanOutcome
  | 0, _, _, _ => .fuelout
  | fuel + 1, current, tokens, errors =>
    match pyGet content current with
    | none => .ok tokens errors
    | some char =>
      if pyIsSpace char then scanLoopF content fuel (current + 1) tokens errors
      else if pyIsAlpha char || char = '_' then
        let m := match_identifier content current
        if m.success then
          scanLoopF content fuel (current + m.span) (tokens ++ m.token.toList) errors
        else .exc
      else if pyIsDigit char then
        match match_number content current with
        | none => .exc
        | some m =>
          if m.success then
            scanLoopF content fuel (current + m.span) (tokens ++ m.token.toList) errors
          else .exc
      else if char = '.' then
        match match_number content current with
        | none => .exc
        | some m =>
          if m.success then
            scanLoopF content fuel (current + m.span) (tokens ++ m.token.toList) errors
          else
            let m2 := match_symbol content current
            if m2.success then
              scanLoopF content fuel (current + m2.span) (tokens ++ m2.token.toList) errors
            else .exc
      else if char = '/' then
        let m := match_comment content current
        if m.success then scanLoopF content fuel (current + m.span) tokens errors
        else
          let m2 := match_symbol content current
          if m2.success then
            scanLoopF content fuel (current + m2.span) (tokens ++ m2.token.toList) errors
          else .exc
      else if char = '\x22' then
        match match_string content current with
        | none => .exc
        | some m =>
          if m.success then
            scanLoopF content fuel (current + m.span) (tokens ++ m.token.toList) errors
          else
            match m.error with
            | .list es =>
              scanLoopF content fuel (current + m.span) tokens (errors ++ es.map PyErrItem.err)
            | _ => .exc
      else
        let m := match_symbol content current
        if m.success then
          scanLoopF content fuel (current + m.span) (tokens ++ m.token.toList) errors
        else
          match m.error with
          | .str s => scanLoopF content fuel (current + 1) tokens (errors ++ [PyErrItem.str s])
          | e => scanLoopF content fuel (current + 1) tokens (errors ++ [PyErrItem.other e])

/-- A full scan of one buffer: `LoxScanner(content).scan()` and the final
`(self.tokens, self.errors)` state. -/
def scanRun (content : List Char) : ScanOutcome :=
  scanLoopF content (content.length + 1) 0 [] []

/-- The public entry point `tokenize` (scan.py lines 348-351): build a
scanner, run it, and return only `scanner.tokens`. `none` models a
propagated exception. -/
def tokenize (content : List Char) : Option (List Token) :=
  match scanRun content with
  | .ok toks _ => some toks
  | _ => none

end PyLox

namespace PyLox

example : match_exponent (toL "E4+") 0 =
    some ⟨true, some ⟨.EXPONENT, toL "E4", 0, 2, some (.int 4)⟩, 2, .none⟩ := by decide
example : match_exponent (toL "e-145") 0 =
    some ⟨true, some ⟨.EXPONENT, toL "e-145", 0, 5, some (.int (-145))⟩, 5, .none⟩ := by decide
example : match_exponent (toL "E-14.5") 0 =
    some ⟨true, some ⟨.EXPONENT, toL "E-14", 0, 4, some (.int (-14))⟩, 4, .none⟩ := by decide
example : match_exponent (toL "eeac") 0 =
    some ⟨false, none, 0, .err ⟨none, toL "eeac", 1, ScanErrorMessages 31⟩⟩ := by decide
example : match_exponent (toL "x=5") 0 =
    some ⟨false, none, 0, .err ⟨none, toL "x=5", 0, ScanErrorMessages 30⟩⟩ := by decide
example : match_exponent (toL "e") 0 = none := by decide
example : match_number (toL "1e") 0 = none := by decide
example : match_number (toL "12  x = 5") 0 =
    some ⟨true, some ⟨.NUMBER, toL "12", 0, 2, some (.int 12)⟩, 2, .none⟩ := by decide
example : match_number (toL "001") 0 =
    some ⟨true, some ⟨.NUMBER, toL "001", 0, 3, some (.int 1)⟩, 3, .none⟩ := by decide
example : match_number (toL "12.0014+") 0 =
    some ⟨true, some ⟨.NUMBER, toL "12.0014", 0, 7, some (.float 120014 4)⟩, 7, .none⟩ := by decide
example : match_number (toL ".015()") 0 =
    some ⟨true, some ⟨.NUMBER, toL ".015", 0, 4, some (.float 15 3)⟩, 4, .none⟩ := by decide
example : match_number (toL "1.2E6+") 0 =
    some ⟨true, some ⟨.NUMBER, toL "1.2E6", 0, 5, some (.float 12000000 1)⟩, 5, .none⟩ := by decide
example : match_number (toL "11.24e-5e+") 0 =
    some ⟨true, some ⟨.NUMBER, toL "11.24e-5", 0, 8, some (.float 1124 7)⟩, 8, .none⟩ := by decide
example : match_number (toL "11.e-2") 0 =
    some ⟨true, some ⟨.NUMBER, toL "11.e-2", 0, 6, some (.float 11 2)⟩, 6, .none⟩ := by decide
example : match_number (toL ".12.45") 0 =
    some ⟨true, some ⟨.NUMBER, toL ".12", 0, 3, some (.float 12 2)⟩, 3, .none⟩ := by decide
example : pyFloatVal 12 2 = 12/100 := by norm_num [pyFloatVal]
example : match_identifier (toL "for i in range") 0 =
    ⟨true, some ⟨.FOR, toL "for", 0, 3, none⟩, 3, .none⟩ := by decide
example : match_identifier (toL "_56ij_ = ") 0 =
    ⟨true, some ⟨.IDENTIFIER, toL "_56ij_", 0, 6, none⟩, 6, .none⟩ := by decide
example : match_string (toL "\"hello world\" +") 0 =
    some ⟨true, some ⟨.STRING, toL "\"hello world\"", 0, 13, some (.str (toL "hello world"))⟩,
          13, .none⟩ := by decide
example : match_string (toL "\"\"") 0 =
    some ⟨true, some ⟨.STRING, toL "\"\"", 0, 2, some (.str [])⟩, 2, .none⟩ := by decide
example : match_comment (toL "//some long comment\n") 0 = ⟨true, none, 20, .none⟩ := by decide
example : match_comment (toL "// ") 0 = ⟨true, none, 3, .none⟩ := by decide
example : match_comment (toL "//") 0 = ⟨false, none, 0, .none⟩ := by decide
example : match_symbol (toL "++5") 0 =
    ⟨true, some ⟨.INC, toL "++", 0, 2, none⟩, 2, .none⟩ := by decide
example : match_symbol (toL "+*5") 0 =
    ⟨true, some ⟨.PLUS, toL "+", 0, 1, none⟩, 1, .none⟩ := by decide
example : match_symbol (toL "@4g") 0 =
    ⟨false, none, 0, .str (ScanErrorMessages 10)⟩ := by decide
example : scanRun (toL "1e") = .exc := by decide
example : tokenize (toL "//") = some [⟨.COMMENT, toL "//", 0, 2, none⟩] := by decide
example : scanRun (toL "?\"a") =
    .ok [] [.str (ScanErrorMessages 10), .err ⟨none, toL "?\"a", 3, ScanErrorMessages 14⟩] := by decide
example : match_string (toL "\"\\q") 0 =
    some ⟨false, some ⟨.STRING, toL "\"", 0, 3, some (.str [])⟩, 3,
          .list [⟨none, toL "\"\\q", 1, ScanErrorMessages 13⟩,
                 ⟨none, toL "\"\\q", 3, ScanErrorMessages 14⟩]⟩ := by decide
example : match_string (toL "\"a\\n\"") 0 =
    some ⟨true, some ⟨.STRING, '\x22' :: 'a' :: '\n' :: ['\x22'], 0, 5,
          some (.str ['a', '\n'])⟩, 5, .none⟩ := by decide
example : tokenize (toL "x = 5") =
    some [⟨.IDENTIFIER, toL "x", 0, 1, none⟩, ⟨.EQ, toL "=", 2, 3, none⟩,
          ⟨.NUMBER, toL "5", 4, 5, some (.int 5)⟩] := by decide

end PyLox

namespace PyLox

/-! ### Helper lemmas about indexed reads, slices and takeWhile -/

theorem pyGet_lt_length {l : List Char} {i : Nat} {c : Char} (h : pyGet l i = some c) :
    i < l.length :=
  (List.get?_eq_some.mp h).1

theorem pyGet_mem {l : List Char} {i : Nat} {c : Char} (h : pyGet l i = some c) : c ∈ l :=
  List.get?_mem h

theorem slice_self (l : List Char) (a : Nat) : pySlice l a a = [] := by
  simp [pySlice]

theorem slice_cons {l : List Char} {a b : Nat} {c : Char}
    (hget : pyGet l a = some c) (hab : a < b) :
    pySlice l a b = c :: pySlice l (a + 1) b := by
  obtain ⟨ha, hc⟩ := List.get?_eq_some.mp hget
  have hdrop : l.drop a = c :: l.drop (a + 1) := by
    rw [List.drop_eq_getElem_cons ha]
    simp [List.get_eq_getElem] at hc
    rw [hc]
  have hb : b - a = (b - (a + 1)) + 1 := by omega
  rw [pySlice, pySlice, hdrop, hb, List.take_succ_cons]

theorem slice_snoc {l : List Char} {a b : Nat} {d : Char}
    (hab : a ≤ b) (hget : pyGet l b = some d) :
    pySlice l a (b + 1) = pySlice l a b ++ [d] := by
  have hget2 : l.get? b = some d := hget
  have h1 : b + 1 - a = (b - a) + 1 := by omega
  rw [pySlice, pySlice, h1, List.take_succ]
  congr 1
  rw [List.getElem?_drop]
  have h2 : a + (b - a) = b := by omega
  rw [h2, ← List.get?_eq_getElem?, hget2]
  rfl

theorem twLenLe (p : Char → Bool) (l : List Char) : (l.takeWhile p).length ≤ l.length :=
  (List.takeWhile_prefix p).length_le

theorem twSat {p : Char → Bool} {l : List Char} {j : Nat} {c : Char}
    (h : (l.takeWhile p).get? j = some c) : p c = true :=
  List.mem_takeWhile_imp (List.get?_mem h)

theorem twAgree (p : Char → Bool) (l : List Char) (j : Nat)
    (h : j < (l.takeWhile p).length) : l.get? j = (l.takeWhile p).get? j := by
  obtain ⟨t, ht⟩ := List.takeWhile_prefix (l := l) p
  conv_lhs => rw [← ht]
  rw [List.get?_append h]

theorem match_symbol_two_success {content : List Char} {start : Nat} {r : MatchResult}
    (h : match_symbol_two content start = some r) :
    r.success = true ∧ r.token.isSome = true ∧ r.error = ErrField.none := by
  unfold match_symbol_two at h
  split at h
  · split at h
    · split at h
      · split at h
        · injection h with h2; subst h2; exact ⟨rfl, rfl, rfl⟩
        · cases h
      · cases h
    · cases h
  · cases h

theorem twStop (p : Char → Bool) :
    ∀ l : List Char, (l.takeWhile p).length < l.length →
      ∃ c, l.get? ((l.takeWhile p).length) = some c ∧ p c = false := by
  intro l
  induction l with
  | nil => intro h; simp at h
  | cons a t ih =>
    intro h
    by_cases hp : p a
    · rw [List.takeWhile_cons_of_pos hp] at h ⊢
      simpa using ih (by simpa using h)
    · rw [List.takeWhile_cons_of_neg hp]
      exact ⟨a, rfl, by simpa using hp⟩

/-! ### Claim C1 (code bug): the matchers are not total.
`match_exponent` reads `content[start + 1]` with no bounds check after the
leading e/E, so `match_exponent("e", 0)` raises IndexError instead of
returning a failure `MatchResult`, and `match_number("1e", 0)` propagates
the same exception through its exponent sub-call. -/

/-- C1: the spec asserts every matcher is total and returns a failure
`MatchResult` when the e/E is the last character; the code instead raises
(modelled by `none`) for `match_exponent "e" 0` and `match_number "1e" 0`. -/
theorem C1_exponent_eof_raises :
    match_exponent (toL "e") 0 = none ∧ match_number (toL "1e") 0 = none :=
  ⟨by decide, by decide⟩

/-! ### Claim C2 (corrected): `tokenize` returns only the token list. -/

/-- C2 (amended): a full scan produces both the ordered token list and the
ordered error list (the `LoxScanner.tokens` / `LoxScanner.errors` pair of
`scanRun`), but the public entry point `tokenize` returns only the token
component; the detected errors are left on the discarded scanner object.
Concretely, scanning "?" detects an unknown-symbol error that `tokenize`
does not return. -/
theorem C2_tokenize_only_tokens :
    (∀ (content : List Char) (toks : List Token) (errs : List PyErrItem),
        scanRun content = .ok toks errs → tokenize content = some toks) ∧
    tokenize (toL "?") = some [] ∧
    scanRun (toL "?") = .ok [] [.str (ScanErrorMessages 10)] := by
  refine ⟨?_, by decide, by decide⟩
  intro content toks errs h
  simp [tokenize, h]

/-- C2 witness: the universal component applied to the scan of "?". -/
theorem C2_witness : tokenize (toL "?") = some [] :=
  C2_tokenize_only_tokens.1 (toL "?") [] [.str (ScanErrorMessages 10)] (by decide)

/-- C2 counterexample: the caller of `tokenize` cannot observe the detected
scan errors: "?" and "" tokenize identically although only the scan of "?"
records an error. -/
theorem C2_counterexample :
    tokenize (toL "?") = tokenize [] ∧ ¬ scanRun (toL "?") = scanRun [] :=
  ⟨by decide, by decide⟩

/-! ### Claim C4 (code bug): the driver crashes on a trailing exponent
marker. On input "1e" the dispatch sends the digit to `match_number`, whose
`match_exponent` sub-call raises IndexError, so the scan neither terminates
normally nor covers the input. -/

/-- C4: the driver loop on input "1e" propagates the IndexError raised
inside `match_exponent` (modelled as `ScanOutcome.exc`) instead of
terminating with a token/error pair covering the input. -/
theorem C4_driver_raises : scanRun (toL "1e") = ScanOutcome.exc := by decide

/-! ### Claim C8 (confirmed): the string matcher accumulates all errors of
one string in order of detection. -/

/-- C8: for a string with one unknown escape sequence and no closing quote
the error list holds both errors, unknown escape (position 1) before
missing closing quote (position 3); with two bad escapes all three errors
appear in detection order. -/
theorem C8_string_error_accumulation :
    match_string (toL "\"\\q") 0 =
      some ⟨false, some ⟨.STRING, toL "\"", 0, 3, some (.str [])⟩, 3,
            .list [⟨none, toL "\"\\q", 1, ScanErrorMessages 13⟩,
                   ⟨none, toL "\"\\q", 3, ScanErrorMessages 14⟩]⟩ ∧
    match_string (toL "\"\\q\\p") 0 =
      some ⟨false, some ⟨.STRING, toL "\"", 0, 5, some (.str [])⟩, 5,
            .list [⟨none, toL "\"\\q\\p", 1, ScanErrorMessages 13⟩,
                   ⟨none, toL "\"\\q\\p", 3, ScanErrorMessages 13⟩,
                   ⟨none, toL "\"\\q\\p", 5, ScanErrorMessages 14⟩]⟩ ∧
    ScanErrorMessages 13 = "Error parsing string: Unknown escape sequence." ∧
    ScanErrorMessages 14 = "Error parsing string: Missing closing quote." := by
  refine ⟨by decide, by decide, rfl, rfl⟩

/-! ### Claim C9 (confirmed): "//" at end of input becomes a COMMENT token. -/

/-- C9: when "//" are the last two characters, `match_comment` fails (it
requires strictly more than two remaining characters), the driver falls
back to `match_symbol`, and the symbol table maps "//" to COMMENT — so
`tokenize "//"` emits a COMMENT token instead of eliding the comment. -/
theorem C9_comment_token_at_eof :
    tokenize (toL "//") = some [⟨.COMMENT, toL "//", 0, 2, none⟩] ∧
    (match_comment (toL "//") 0).success = false ∧
    match_symbol (toL "//") 0 = ⟨true, some ⟨.COMMENT, toL "//", 0, 2, none⟩, 2, .none⟩ :=
  ⟨by decide, by decide, by decide⟩

/-! ### Claim C10 (confirmed): unknown-symbol errors are bare strings. -/

/-- C10: a failed `match_symbol` carries the bare catalog string
"Unknown symbol." (not a `ScanError` record), and the driver appends it
directly, so a scan's error list can mix plain strings with `ScanError`
values — as the scan of a "?" followed by an unterminated string shows. -/
theorem C10_unknown_symbol_string :
    (∀ (content : List Char) (start : Nat),
        (match_symbol content start).success = false →
        (match_symbol content start).error = ErrField.str "Unknown symbol.") ∧
    scanRun (toL "?\"a") =
      .ok [] [.str "Unknown symbol.", .err ⟨none, toL "?\"a", 3, ScanErrorMessages 14⟩] := by
  constructor
  · intro content start h
    unfold match_symbol at h ⊢
    cases htwo : match_symbol_two content start with
    | some r =>
      rw [htwo] at h
      have h2 : r.success = false := h
      exact absurd (match_symbol_two_success htwo).1 (by simp [h2])
    | none =>
      rw [htwo] at h
      cases hsym : symLookup (pySlice content start (start + 1)) with
      | some kind => rw [hsym] at h; exact absurd h (by simp)
      | none => rfl
  · decide

/-- C10 witness: the universal component applied to the failing symbol
lookup at "@". -/
theorem C10_witness :
    (match_symbol (toL "@") 0).error = ErrField.str "Unknown symbol." :=
  C10_unknown_symbol_string.1 (toL "@") 0 (by decide)

end PyLox

namespace PyLox

theorem match_exponent_tail_shape (content : List Char) (start : Nat) (sign : Int) (i2 : Nat) :
    ((match_exponent_tail content start sign i2).error = ErrField.none ↔
      (match_exponent_tail content start sign i2).success = true) ∧
    (match_exponent_tail content start sign i2).token.isSome =
      (match_exponent_tail content start sign i2).success := by
  unfold match_exponent_tail
  dsimp only
  split
  · exact ⟨by simp, rfl⟩
  · exact ⟨by simp, rfl⟩

/-! ### Claim C5 (corrected): the token/error presence invariant. -/

/-- C5 counterexample: `match_string` on an unterminated string returns
`success = false` together with a present token (the claim says a failed
`match_string` carries no token). -/
theorem C5_counterexample :
    match_string (toL "\"a") 0 =
      some ⟨false, some ⟨.STRING, toL "\"a", 0, 2, some (.str [])⟩, 2,
            .list [⟨none, toL "\"a", 2, ScanErrorMessages 14⟩]⟩ ∧
    (MatchResult.mk false (some ⟨.STRING, toL "\"a", 0, 2, some (.str [])⟩) 2
        (.list [⟨none, toL "\"a", 2, ScanErrorMessages 14⟩])).token ≠ none :=
  ⟨by decide, by decide⟩

/-- C5 (amended): for every matcher result, the error is present exactly
when `success` is false — except `match_comment`, which always carries
neither token nor error — and the token is present exactly when `success`
is true — except `match_string`, which attaches a token even on failure
whenever the opening quote was present. -/
theorem C5_result_shape (content : List Char) (start : Nat) (ms mn me : MatchResult) :
    (match_string content start = some ms →
        ((ms.error = ErrField.none ↔ ms.success = true) ∧
          (pyGet content start = some '\x22' → ms.token.isSome = true))) ∧
    (match_number content start = some mn →
        ((mn.error = ErrField.none ↔ mn.success = true) ∧ mn.token.isSome = mn.success)) ∧
    (match_exponent content start = some me →
        ((me.error = ErrField.none ↔ me.success = true) ∧ me.token.isSome = me.success)) ∧
    ((match_symbol content start).error = ErrField.none ↔
      (match_symbol content start).success = true) ∧
    (match_symbol content start).token.isSome = (match_symbol content start).success ∧
    ((match_identifier content start).error = ErrField.none ↔
      (match_identifier content start).success = true) ∧
    (match_identifier content start).token.isSome = (match_identifier content start).success ∧
    (match_comment content start).token = none ∧
    (match_comment content start).error = ErrField.none := by
  refine ⟨?_, ?_, ?_, ?_, ?_, ?_, ?_, ?_, ?_⟩
  · intro hm
    unfold match_string at hm
    split at hm
    · exact absurd hm (by simp)
    · rename_i c0 hg
      split at hm
      · rename_i hq
        rcases hr : strLoopF content (content.length + 1) (start + 1) [] [] with
          ⟨i, chars, errs0, ended⟩
        rw [hr] at hm
        injection hm with hm
        subst hm
        refine ⟨?_, fun _ => rfl⟩
        by_cases hE :
            (if ended = true then errs0
              else errs0 ++ [⟨none, content, i, ScanErrorMessages 14⟩]).isEmpty
        · simp [hE]
        · simp [hE]
      · rename_i hq
        injection hm with hm
        subst hm
        refine ⟨by simp, ?_⟩
        intro hq2
        rw [hg] at hq2
        injection hq2 with hq2
        exact absurd hq2 hq
  · intro hm
    unfold match_number at hm
    iterate 12 all_goals try (first | split at hm | (dsimp only at hm; split at hm))
    all_goals
      first
        | (injection hm with hm; subst hm; exact ⟨by simp, rfl⟩)
        | injection hm
  · intro hm
    unfold match_exponent at hm
    iterate 12 all_goals try (first | split at hm | (dsimp only at hm; split at hm))
    all_goals
      first
        | (injection hm with hm; subst hm;
            first
              | exact match_exponent_tail_shape content start (-1) (start + 2)
              | exact match_exponent_tail_shape content start 1 (start + 2)
              | exact match_exponent_tail_shape content start 1 (start + 1)
              | exact ⟨by simp, rfl⟩)
        | injection hm
  · unfold match_symbol
    cases htwo : match_symbol_two content start with
    | some r =>
      obtain ⟨h1, _, h3⟩ := match_symbol_two_success htwo
      simp [h1, h3]
    | none =>
      cases hsym : symLookup (pySlice content start (start + 1)) with
      | some kind => simp
      | none => simp
  · unfold match_symbol
    cases htwo : match_symbol_two content start with
    | some r =>
      obtain ⟨h1, h2, _⟩ := match_symbol_two_success htwo
      rw [h1, h2]
    | none =>
      cases hsym : symLookup (pySlice content start (start + 1)) with
      | some kind => rfl
      | none => rfl
  · unfold match_identifier
    dsimp only
    split
    · simp
    · simp
  · unfold match_identifier
    dsimp only
    split
    · rfl
    · rfl
  · unfold match_comment
    split
    · split
      · rfl
      · rfl
    · rfl
  · unfold match_comment
    split
    · split
      · rfl
      · rfl
    · rfl

/-- C5 witness: the amended invariant instantiated at the successful
number match on the one-character buffer "1". -/
theorem C5_witness :
    ((MatchResult.mk true (some ⟨.NUMBER, toL "1", 0, 1, some (.int 1)⟩) 1
        ErrField.none).error = ErrField.none ↔
      (MatchResult.mk true (some ⟨.NUMBER, toL "1", 0, 1, some (.int 1)⟩) 1
        ErrField.none).success = true) ∧
    (MatchResult.mk true (some ⟨.NUMBER, toL "1", 0, 1, some (.int 1)⟩) 1
        ErrField.none).token.isSome =
      (MatchResult.mk true (some ⟨.NUMBER, toL "1", 0, 1, some (.int 1)⟩) 1
        ErrField.none).success :=
  (C5_result_shape (toL "1") 0
      ⟨false, none, 0, .err ⟨none, toL "1", 0, ScanErrorMessages 11⟩⟩
      ⟨true, some ⟨.NUMBER, toL "1", 0, 1, some (.int 1)⟩, 1, .none⟩
      ⟨false, none, 0, .err ⟨none, toL "1", 0, ScanErrorMessages 30⟩⟩).2.1 (by decide)

end PyLox

namespace PyLox

/-! ### Claim C6 (corrected): the comment matcher's success condition and
span. The source condition is `len(content) - start > 2`, so a "//" that
forms the last two characters of the buffer is a failed match (see C9),
contrary to the claim; on a successful match the span does run up to and
including the terminating newline or to end of input. -/

/-- C6 counterexample: at the buffer "//" the two characters at offset 0
are exactly "//" yet `match_comment` fails (the claim says every such call
succeeds, including when "//" are the last two characters). -/
theorem C6_counterexample :
    pySlice (toL "//") 0 2 = ['/', '/'] ∧
    (match_comment (toL "//") 0).success = false :=
  ⟨by decide, by decide⟩

/-- C6 (amended): `match_comment` succeeds iff strictly more than two
characters remain at the offset and the two characters there are "//"; on
success it yields no token and no error, consumes at least the marker, and
its span runs up to and including the terminating newline, or to end of
input when no newline follows; on failure the result is the bare non-match
with no error. -/
theorem C6_comment_span (content : List Char) (start : Nat) :
    ((match_comment content start).success = true ↔
      (2 < content.length - start ∧ pySlice content start (start + 2) = ['/', '/'])) ∧
    ((match_comment content start).success = false →
      match_comment content start = ⟨false, none, 0, .none⟩) ∧
    ((match_comment content start).success = true →
      (match_comment content start).token = none ∧
      (match_comment content start).error = ErrField.none ∧
      start + 2 ≤ start + (match_comment content start).span ∧
      (start + (match_comment content start).span = content.length ∨
        pyGet content (start + (match_comment content start).span - 1) = some '\n') ∧
      (∀ k, start + 2 ≤ k → k + 1 < start + (match_comment content start).span →
        ¬ pyGet content k = some '\n')) := by
  by_cases h1 : 2 < content.length - start
  · by_cases h2 : pySlice content start (start + 2) = ['/', '/']
    · have hcm : match_comment content start =
          ⟨true, none,
            (if pyGet content
                  (start + 2 +
                    ((content.drop (start + 2)).takeWhile (fun c => !(c = '\n'))).length) =
                some '\n' then
              start + 2 +
                ((content.drop (start + 2)).takeWhile (fun c => !(c = '\n'))).length + 1
            else
              start + 2 +
                ((content.drop (start + 2)).takeWhile (fun c => !(c = '\n'))).length) - start,
            .none⟩ := by
        unfold match_comment
        rw [if_pos h1, if_pos h2]
      set tw := (content.drop (start + 2)).takeWhile (fun c => !(c = '\n')) with htw
      have htwlen : tw.length ≤ content.length - (start + 2) := by
        have := twLenLe (fun c => !(c = '\n')) (content.drop (start + 2))
        simpa using this
      have hintern : ∀ k, start + 2 ≤ k → k < start + 2 + tw.length →
          ¬ pyGet content k = some '\n' := by
        intro k hk1 hk2 hget
        have hklt : k - (start + 2) < tw.length := by omega
        have hagree := twAgree (fun c => !(c = '\n')) (content.drop (start + 2)) (k - (start + 2)) hklt
        have hdropk : (content.drop (start + 2)).get? (k - (start + 2)) = some '\n' := by
          rw [List.get?_drop]
          have : start + 2 + (k - (start + 2)) = k := by omega
          rw [this]
          exact hget
        rw [hdropk] at hagree
        have := twSat hagree.symm
        simp at this
      refine ⟨?_, ?_, ?_⟩
      · rw [hcm]; simpa using ⟨h1, h2⟩
      · intro hf; rw [hcm] at hf; simp at hf
      · intro _
        rw [hcm]
        by_cases hnl : pyGet content (start + 2 + tw.length) = some '\n'
        · rw [if_pos hnl]
          have hspan : start + (start + 2 + tw.length + 1 - start) = start + 2 + tw.length + 1 := by
            omega
          refine ⟨rfl, rfl,
            by show start + 2 ≤ start + (start + 2 + tw.length + 1 - start); omega, ?_, ?_⟩
          · right
            rw [hspan]
            simpa using hnl
          · intro k hk1 hk2
            rw [hspan] at hk2
            exact hintern k hk1 (by omega)
        · rw [if_neg hnl]
          have hj : start + 2 + tw.length = content.length := by
            rcases Nat.lt_or_ge (start + 2 + tw.length) content.length with hlt | hge
            · exfalso
              have hlen : tw.length < (content.drop (start + 2)).length := by
                rw [List.length_drop]; omega
              obtain ⟨c, hc1, hc2⟩ := twStop (fun c => !(c = '\n')) (content.drop (start + 2)) hlen
              have hcnl : c = '\n' := by simpa using hc2
              apply hnl
              rw [← htw] at hc1
              have : content.get? (start + 2 + tw.length) = some c := by
                rw [← List.get?_drop]
                exact hc1
              rw [hcnl] at this
              exact this
            · omega
          have hspan : start + (start + 2 + tw.length - start) = start + 2 + tw.length := by
            omega
          refine ⟨rfl, rfl,
            by show start + 2 ≤ start + (start + 2 + tw.length - start); omega, ?_, ?_⟩
          · left; rw [hspan, hj]
          · intro k hk1 hk2
            rw [hspan] at hk2
            exact hintern k hk1 (by omega)
    · have hcm : match_comment content start = ⟨false, none, 0, .none⟩ := by
        unfold match_comment
        rw [if_pos h1, if_neg h2]
      rw [hcm]
      refine ⟨by simpa using fun _ hx => absurd hx h2, fun _ => rfl, by simp⟩
  · have hcm : match_comment content start = ⟨false, none, 0, .none⟩ := by
      unfold match_comment
      rw [if_neg h1]
    rw [hcm]
    refine ⟨by simpa using fun hx => absurd hx h1, fun _ => rfl, by simp⟩

/-- C6 witness: the amended characterization applied to the comment
"//a" scanned from offset 0 (it succeeds with no token and no error). -/
theorem C6_witness :
    (match_comment (toL "//a") 0).token = none ∧
    (match_comment (toL "//a") 0).error = ErrField.none :=
  ⟨((C6_comment_span (toL "//a") 0).2.2 (by decide)).1,
   ((C6_comment_span (toL "//a") 0).2.2 (by decide)).2.1⟩

end PyLox

namespace PyLox

/-! ### Claim C7 (confirmed): the number matcher never consumes a second
dot. The digit loop invariant is that the collected characters hold at
most one dot, and an exponent lexeme holds none. -/

theorem count_dot_append_of_ne {chars : List Char} {c : Char} (h : ¬ c = '.') :
    (chars ++ [c]).count '.' = chars.count '.' := by
  rw [List.count_append]
  have h2 : ([c].count '.') = 0 := by simp [List.count_cons, h]
  omega

theorem count_dot_append_dot (chars : List Char) :
    (chars ++ ['.']).count '.' = chars.count '.' + 1 := by
  rw [List.count_append]
  have h2 : (['.'].count '.') = 1 := by simp
  omega

theorem numLoopF_dots (content : List Char) :
    ∀ (fuel i : Nat) (chars : List Char) (hasDot hasDigit : Bool),
      (hasDot = false → chars.count '.' = 0) → chars.count '.' ≤ 1 →
      (numLoopF content fuel i chars hasDot hasDigit).1.count '.' ≤ 1 := by
  intro fuel
  induction fuel with
  | zero =>
    intro i chars hasDot hasDigit h0 h1
    exact h1
  | succ fuel ih =>
    intro i chars hasDot hasDigit h0 h1
    rw [numLoopF]
    split
    · exact h1
    · rename_i c hg
      split
      · rename_i hd
        have hcne : ¬ c = '.' := by
          intro hc
          rw [hc] at hd
          exact absurd hd (by decide)
        apply ih
        · intro hh
          rw [count_dot_append_of_ne hcne]
          exact h0 hh
        · rw [count_dot_append_of_ne hcne]
          exact h1
      · split
        · rename_i hd2
          simp only [Bool.and_eq_true, decide_eq_true_eq, Bool.not_eq_true'] at hd2
          apply ih
          · intro hh
            simp at hh
          · rw [hd2.1, count_dot_append_dot, h0 hd2.2]
        · exact h1

theorem slice_count_dot_zero {l : List Char} {a b : Nat}
    (h : ∀ k, a ≤ k → k < b → ¬ l.get? k = some '.') :
    (pySlice l a b).count '.' = 0 := by
  rw [List.count_eq_zero]
  intro hmem
  obtain ⟨n, hn⟩ := List.mem_iff_get?.mp hmem
  have hlen := (List.get?_eq_some.mp hn).1
  have hlb : n < b - a := by
    have h2 : (pySlice l a b).length ≤ b - a := by
      rw [pySlice, List.length_take]
      omega
    omega
  rw [pySlice, List.get?_take hlb, List.get?_drop] at hn
  exact h (a + n) (by omega) (by omega) hn

theorem match_exponent_tail_no_dot {content : List Char} {start : Nat} {sign : Int}
    {i2 : Nat} {t : Token}
    (hpre : ∀ k, start ≤ k → k < i2 → ¬ content.get? k = some '.')
    (ht : (match_exponent_tail content start sign i2).token = some t) :
    t.lexeme.count '.' = 0 := by
  unfold match_exponent_tail at ht
  dsimp only at ht
  split at ht
  · simp at ht
  · injection ht with ht
    subst ht
    show (pySlice content start
        (i2 + ((content.drop i2).takeWhile pyIsDigit).length)).count '.' = 0
    apply slice_count_dot_zero
    intro k hk1 hk2 hget
    by_cases hk : k < i2
    · exact hpre k hk1 hk hget
    · have hkk : k - i2 < ((content.drop i2).takeWhile pyIsDigit).length := by omega
      have hagree := twAgree pyIsDigit (content.drop i2) (k - i2) hkk
      have hdropk : (content.drop i2).get? (k - i2) = some '.' := by
        rw [List.get?_drop]
        have h5 : i2 + (k - i2) = k := by omega
        rw [h5]
        exact hget
      rw [hdropk] at hagree
      exact absurd (twSat hagree.symm) (by decide)

theorem match_exponent_lexeme_no_dot {content : List Char} {start : Nat} {m : MatchResult}
    (hm : match_exponent content start = some m) {t : Token} (ht : m.token = some t) :
    t.lexeme.count '.' = 0 := by
  unfold match_exponent at hm
  split at hm
  · injection hm with hm; subst hm; simp at ht
  · split at hm
    · injection hm
    · rename_i c0 hg0
      split at hm
      · rename_i he
        split at hm
        · injection hm
        · rename_i c1 hg1
          have hc0 : ¬ content.get? start = some '.' := by
            intro hd
            have hg0x : content.get? start = some c0 := hg0
            rw [hg0x] at hd
            injection hd with hd
            rw [hd] at he
            exact absurd he (by decide)
          have hc1pre : ∀ ch, ¬ ch = '.' → c1 = ch →
              ∀ k, start ≤ k → k < start + 2 → ¬ content.get? k = some '.' := by
            intro ch hchne hc1 k hk1 hk2 hd
            rcases Nat.lt_or_ge k (start + 1) with hk | hk
            · have hks : k = start := by omega
              rw [hks] at hd
              exact hc0 hd
            · have hks : k = start + 1 := by omega
              rw [hks] at hd
              have hg1x : content.get? (start + 1) = some c1 := hg1
              rw [hg1x] at hd
              injection hd with hd
              rw [hc1] at hd
              exact hchne hd
          split at hm
          · rename_i hs1
            injection hm with hm; subst hm
            exact match_exponent_tail_no_dot (hc1pre '-' (by decide) hs1) ht
          · split at hm
            · rename_i hs1
              injection hm with hm; subst hm
              exact match_exponent_tail_no_dot (hc1pre '+' (by decide) hs1) ht
            · injection hm with hm; subst hm
              refine match_exponent_tail_no_dot ?_ ht
              intro k hk1 hk2 hd
              have hks : k = start := by omega
              rw [hks] at hd
              exact hc0 hd
      · injection hm with hm; subst hm; simp at ht

/-- C7: the number matcher never consumes a second dot — every token it
returns has at most one '.' in its lexeme — and concretely
`match_number(".12.45")` succeeds with lexeme ".12", literal 0.12
(the exact rational 12 / 100) and span 3, leaving the second dot and
everything after it unconsumed. -/
theorem C7_single_dot :
    (∀ (content : List Char) (start : Nat) (m : MatchResult) (t : Token),
        match_number content start = some m → m.token = some t →
        t.lexeme.count '.' ≤ 1) ∧
    match_number (toL ".12.45") 0 =
      some ⟨true, some ⟨.NUMBER, toL ".12", 0, 3, some (.float 12 2)⟩, 3, .none⟩ ∧
    pyFloatVal 12 2 = 12 / 100 := by
  refine ⟨?_, by decide, by norm_num [pyFloatVal]⟩
  intro content start m t hm ht
  unfold match_number at hm
  split at hm
  · injection hm
  · rename_i c0 hg0
    split at hm
    · injection hm with hm; subst hm; simp at ht
    · rename_i hc0
      split at hm
      · rename_i x chars hasDot hasDigit i heqnum
        have hchars : chars.count '.' ≤ 1 := by
          have hinv := numLoopF_dots content (content.length + 1) start [] false false
            (fun _ => rfl) (by simp)
          rw [heqnum] at hinv
          exact hinv
        split at hm
        · injection hm with hm; subst hm; simp at ht
        · rename_i hdig
          dsimp only at hm
          split at hm
          · split at hm
            · injection hm
            · rename_i xo expm heqexp
              split at hm
              · split at hm
                · injection hm
                · rename_i xt et heqtok
                  injection hm with hm; subst hm
                  injection ht with ht
                  subst ht
                  show ((chars ++ et.lexeme).count '.') ≤ 1
                  rw [List.count_append]
                  have h2 := match_exponent_lexeme_no_dot heqexp heqtok
                  omega
              · injection hm with hm; subst hm
                injection ht with ht
                subst ht
                show (chars.count '.') ≤ 1
                exact hchars
          · injection hm with hm; subst hm
            injection ht with ht
            subst ht
            show (chars.count '.') ≤ 1
            exact hchars

/-- C7 witness: the single-dot bound applied to the match of ".12.45". -/
theorem C7_witness : (toL ".12").count '.' ≤ 1 :=
  C7_single_dot.1 (toL ".12.45") 0
    ⟨true, some ⟨.NUMBER, toL ".12", 0, 3, some (.float 12 2)⟩, 3, .none⟩
    ⟨.NUMBER, toL ".12", 0, 3, some (.float 12 2)⟩ (by decide) (by decide)

end PyLox

namespace PyLox

/-! ### Claim C3 (corrected): the string lexeme is built from decoded
characters, not raw source text. When an escape sequence is decoded, the
decoded character (not the raw backslash pair) lands in the lexeme, so the
lexeme equals the raw consumed substring only when no escape occurs. -/

theorem strLoopF_noBS (content : List Char) (hno : ∀ c ∈ content, ¬ c = '\\') :
    ∀ (fuel i : Nat) (chars : List Char) (errors : List ScanError)
      (i2 : Nat) (chars2 : List Char) (errors2 : List ScanError),
      strLoopF content fuel i chars errors = (i2, chars2, errors2, true) →
      chars2 = chars ++ pySlice content i (i2 - 1) ∧ i + 1 ≤ i2 ∧
        pyGet content (i2 - 1) = some '\x22' ∧ errors2 = errors := by
  intro fuel
  induction fuel with
  | zero =>
    intro i chars errors i2 chars2 errors2 h
    simp [strLoopF] at h
  | succ fuel ih =>
    intro i chars errors i2 chars2 errors2 h
    rw [strLoopF] at h
    split at h
    · simp at h
    · rename_i c hg
      have hc : ¬ c = '\\' := hno c (pyGet_mem hg)
      rw [if_neg hc] at h
      by_cases hq : c = '\x22'
      · rw [if_pos hq] at h
        injection h with h1 h
        injection h with h2 h
        injection h with h3 h4
        refine ⟨?_, by omega, ?_, h3.symm⟩
        · rw [← h2, ← h1]
          have hself : pySlice content i (i + 1 - 1) = [] := by
            have : i + 1 - 1 = i := by omega
            rw [this, slice_self]
          rw [hself, List.append_nil]
        · rw [← h1]
          have : i + 1 - 1 = i := by omega
          rw [this, hg, hq]
      · rw [if_neg hq] at h
        obtain ⟨ha, hb, hcq, hd⟩ := ih (i + 1) (chars ++ [c]) errors i2 chars2 errors2 h
        refine ⟨?_, by omega, hcq, hd⟩
        rw [ha, List.append_assoc]
        congr 1
        have hcons := slice_cons hg (show i < i2 - 1 by omega)
        rw [hcons]
        rfl

/-- C3 counterexample: for the source text of a string containing the raw
escape pair backslash-n, the lexeme of the returned token contains the
decoded newline character, not the raw backslash and n — it is not the raw
source substring consumed. -/
theorem C3_counterexample :
    match_string (toL "\"a\\n\"") 0 =
      some ⟨true, some ⟨.STRING, '\x22' :: 'a' :: '\n' :: ['\x22'], 0, 5,
            some (.str ['a', '\n'])⟩, 5, .none⟩ ∧
    ¬ ('\x22' :: 'a' :: '\n' :: ['\x22'] = pySlice (toL "\"a\\n\"") 0 (0 + 5)) :=
  ⟨by decide, by decide⟩

/-- C3 (amended): the lexeme is the opening quote, the decoded characters,
and the closing quote when one was consumed; it coincides with the raw
consumed substring exactly in the escape-free case — proved here: when the
buffer contains no backslash and the match succeeds, the lexeme is the raw
source slice spanned by the match. -/
theorem C3_lexeme_raw (content : List Char) (start : Nat) (m : MatchResult) (t : Token)
    (hno : ∀ c ∈ content, ¬ c = '\\')
    (hm : match_string content start = some m) (hs : m.success = true)
    (ht : m.token = some t) :
    t.lexeme = pySlice content start (start + m.span) := by
  unfold match_string at hm
  split at hm
  · exact absurd hm (by simp)
  · rename_i c0 hg0
    split at hm
    · rename_i hq
      rcases hr : strLoopF content (content.length + 1) (start + 1) [] [] with
        ⟨i, chars, errs0, ended⟩
      rw [hr] at hm
      injection hm with hm
      subst hm
      cases ended with
      | false =>
        exfalso
        have hs2 :
            (errs0 ++ [(⟨none, content, i, ScanErrorMessages 14⟩ : ScanError)]).isEmpty =
              true := hs
        simp at hs2
      | true =>
        obtain ⟨ha, hb, hcq, _⟩ := strLoopF_noBS content hno (content.length + 1)
          (start + 1) [] [] i chars errs0 hr
        have hspan : start + (i - start) = i := by omega
        injection ht with ht
        subst ht
        show '\x22' :: (chars ++ ['\x22']) = pySlice content start (start + (i - start))
        rw [hspan]
        have hq0 : pyGet content start = some '\x22' := by
          rw [hg0, hq]
        rw [slice_cons hq0 (show start < i by omega)]
        congr 1
        have hi : i = (i - 1) + 1 := by omega
        rw [ha]
        simp only [List.nil_append]
        conv_rhs => rw [hi]
        rw [slice_snoc (show start + 1 ≤ i - 1 by omega) hcq]
    · rename_i hq
      injection hm with hm
      subst hm
      simp at hs

/-- C3 witness: the amended statement applied to the escape-free string
literal source text of "ab". -/
theorem C3_witness :
    toL "\"ab\"" = pySlice (toL "\"ab\"") 0 (0 + 4) :=
  C3_lexeme_raw (toL "\"ab\"") 0
    ⟨true, some ⟨.STRING, toL "\"ab\"", 0, 4, some (.str (toL "ab"))⟩, 4, .none⟩
    ⟨.STRING, toL "\"ab\"", 0, 4, some (.str (toL "ab"))⟩
    (by decide) (by decide) (by decide) (by decide)

end PyLox
